import Mathlib

/-!
# lunchmoney-cli: retrieval and normalization pipeline

A shallow embedding of `internal/lunchmoney/client.go` (paginated transaction
fetch, API error decoding) and `internal/cli/tx.go` (lookup builders,
exclude-from-totals filter, view normalizer, newest-first sort), followed by the
properties established about them.

Conventions of the embedding:

* `int64` identifiers and Go `int` counters are `Int`; no arithmetic in the
  modelled code can leave the 64-bit range for inputs that fit in memory.
* `float64` amounts are exact rationals (`ℚ`).
* a Go `map[int64]V` is a finite lookup `Int → Option V`; `m[k]` with the
  comma-ok form is `m k`.
* a nil pointer is `none`; a nil slice is `[]`.
* a call that does not return (a run-time panic or a fatal error of the
  runtime) is recorded in the outcome of the call.
* Go compares strings bytewise; on the valid UTF-8 produced by the JSON decoder
  that is the code-point order, which is the order of Lean's `String`.
-/

namespace lunchmoney

/-- The `Transaction` struct of `client.go`. -/
structure Transaction where
  ID : Int
  Date : String
  Amount : String
  ToBase : ℚ
  Payee : String
  CategoryID : Option Int
  ManualAccountID : Option Int
  PlaidAccountID : Option Int
  Notes : Option String
  Status : String
  IsPending : Bool
  TagIDs : List Int
  deriving DecidableEq

/-- The `ListTransactionsParams` struct of `client.go`. -/
structure ListTransactionsParams where
  StartDate : String
  EndDate : String
  Status : String
  IncludePending : Bool
  Limit : Int
  deriving DecidableEq

/-- The `listTransactionsResponse` envelope of `client.go`. -/
structure listTransactionsResponse where
  Transactions : List Transaction
  HasMore : Bool
  deriving DecidableEq

/-- Query parameters (`url.Values` restricted to single-valued keys), in the
order in which the keys were first set. -/
abbrev Values := List (String × String)

/-- `url.Values.Set`: replace the value stored under `key`, or add the key. -/
def Values.Set (q : Values) (key value : String) : Values :=
  if q.any (fun kv => kv.1 == key) then
    q.map (fun kv => if kv.1 == key then (key, value) else kv)
  else q ++ [(key, value)]

/-- `url.Values.Get`: the value stored under `key`, if any. -/
def Values.Get (q : Values) (key : String) : Option String :=
  (q.find? (fun kv => kv.1 == key)).map Prod.snd

/-- `url.Values.Has`. -/
def Values.Has (q : Values) (key : String) : Bool :=
  q.any (fun kv => kv.1 == key)

/-- `strconv.Itoa`: decimal rendering of an integer. -/
def Itoa (n : Int) : String := toString n

/-- The query built at the top of each iteration of the loop of
`Client.ListTransactions` (lines 120-128), from the parameters (with `Limit`
already defaulted) and the current offset. -/
def listQuery (params : ListTransactionsParams) (offset : Int) : Values :=
  let q : Values := []
  let q := q.Set "start_date" params.StartDate
  let q := q.Set "end_date" params.EndDate
  let q := q.Set "status" params.Status
  let q := q.Set "limit" (Itoa params.Limit)
  let q := q.Set "offset" (Itoa offset)
  if params.IncludePending then q.Set "include_pending" "true" else q

/-- What one `doJSON` call of the listing loop yields: an error (transport
failure, unexpected status, undecodable body) or a decoded page. -/
abbrev Reply := Except String listTransactionsResponse

/-- The outcome of `Client.ListTransactions`: Go's `([]Transaction, error)`
pair, together with the queries of the requests that were issued, in order.
`crashed` tells that the call did not return at all: the pre-allocation of the
result slice ended in a run-time panic or a fatal error. -/
structure ListOutcome where
  transactions : List Transaction
  err : Option String
  requests : List Values
  crashed : Bool := false
  deriving DecidableEq

/-- The size in bytes of a `Transaction` value on a 64-bit platform: five
strings of 16 bytes, one slice of 24 bytes, and five words of 8 bytes for the
`int64`, the `float64`, the three `*int64`, plus 8 for the `*string` and 8 for
the padded `bool`. -/
def transactionSize : Int := 144

/-- The `maxAlloc` of the Go runtime on a 64-bit platform with 48-bit heap
addresses: `2 ^ 48` bytes. -/
def maxAlloc : Int := 281474976710656

/-- Whether `make([]Transaction, 0, cap)` (client.go line 116) succeeds in a
process that can still obtain `available` bytes. `runtime.makeslice` panics
("cap out of range") when the capacity is negative or its byte size overflows or
exceeds `maxAlloc`; an allocation that the memory cannot serve is a fatal
error. -/
def makeSucceeds (available : Nat) (cap : Int) : Bool :=
  decide (0 ≤ cap) && decide (transactionSize * cap ≤ maxAlloc) &&
    decide (transactionSize * cap ≤ (available : Int))

/-- The `for` loop of `Client.ListTransactions` (lines 119-151). The server is
the sequence of replies it gives to the successive requests; a server that has
stopped replying makes the transport fail. `all` and `offset` are the loop
variables, `sent` the queries issued so far. -/
def listLoop (params : ListTransactionsParams) :
    List Reply → List Transaction → Int → List Values → ListOutcome
  | [], _, offset, sent =>
    { transactions := [], err := some "transport: no response",
      requests := sent ++ [listQuery params offset] }
  | reply :: server, all, offset, sent =>
    let sent := sent ++ [listQuery params offset]
    match reply with
    | .error e => { transactions := [], err := some e, requests := sent }
    | .ok resp =>
      let all := all ++ resp.Transactions
      if !resp.HasMore then
        { transactions := all, err := none, requests := sent }
      else
        let offset := offset + (resp.Transactions.length : Int)
        if resp.Transactions.length == 0 then
          { transactions := [],
            err := some "pagination indicated more results but received empty page",
            requests := sent }
        else listLoop params server all offset sent

/-- `Client.ListTransactions` (lines 102-154) against a server given by its
sequence of replies, in a process that can still obtain `available` bytes of
memory. The pre-allocation `all := make([]Transaction, 0, params.Limit)` of
line 116 reserves room for `Limit` transactions before the first request. -/
def ListTransactions (available : Nat) (server : List Reply)
    (params : ListTransactionsParams) : ListOutcome :=
  if params.StartDate == "" then
    { transactions := [], err := some "start date is required", requests := [] }
  else if params.EndDate == "" then
    { transactions := [], err := some "end date is required", requests := [] }
  else if params.Status == "" then
    { transactions := [], err := some "status is required", requests := [] }
  else
    let params := if params.Limit ≤ 0 then { params with Limit := 1000 } else params
    if !makeSucceeds available params.Limit then
      { transactions := [], err := none, requests := [], crashed := true }
    else listLoop params server [] 0 []

end lunchmoney

namespace cli

open lunchmoney

/-- A Go `map[int64]V`, read through the comma-ok lookup `v, ok := m[k]`. -/
abbrev GoMap (V : Type) := Int → Option V

/-- The `categoryMeta` struct of `tx.go`. -/
structure categoryMeta where
  Name : String
  Group : String
  IsIncome : Bool
  ExcludeFromTotals : Bool
  deriving DecidableEq

/-- The `accountMeta` struct of `tx.go`. -/
structure accountMeta where
  DisplayName : String
  Institution : String
  deriving DecidableEq

/-- The `transactionView` struct of `render.go`. -/
structure transactionView where
  ID : Int
  Date : String
  Description : String
  Category : String
  Amount : ℚ
  Account : String
  Institution : String
  Group : String
  Type_ : String
  Notes : String
  Tags : String
  Status : String
  IsPending : Bool
  deriving DecidableEq

/-- `shouldExcludeFromTotalsFilter` (tx.go lines 318-327). -/
def shouldExcludeFromTotalsFilter (tx : Transaction) (categories : GoMap categoryMeta) : Bool :=
  match tx.CategoryID with
  | none => false
  | some id =>
    match categories id with
    | none => false
    | some c => c.ExcludeFromTotals

/-- Lexicographic comparison of two character sequences, first difference
decides, a proper prefix is smaller. -/
def lexLess : List Char → List Char → Bool
  | _, [] => false
  | [], _ :: _ => true
  | a :: as, b :: bs =>
    if a < b then true else if b < a then false else lexLess as bs

/-- Go's `a < b` on strings. -/
def stringLess (a b : String) : Bool := lexLess a.data b.data

/-- `sort.Strings`: the increasing rearrangement of a list of strings. An
element is placed before the first element of the sorted rest that is not
smaller than it. -/
def sortStrings (names : List String) : List String :=
  names.insertionSort (fun a b => stringLess b a = false)

/-- `strings.Join`. -/
def stringsJoin (elems : List String) (sep : String) : String :=
  sep.intercalate elems

/-- `fmt.Sprintf` with the format `prefix%d`: the prefix followed by the
decimal rendering of the integer. -/
def sprintfD (pre : String) (n : Int) : String := pre ++ Itoa n

/-- `toTransactionView` (tx.go lines 329-405). The variables assigned in the
branches of the source (`categoryName`, `categoryGroup`, `txType`; `account`,
`institution`) are the components of the tuples `cat` and `acct`; the tag loop
is the fold that appends the name of every tag id found in the lookup. -/
def toTransactionView (tx : Transaction) (categories : GoMap categoryMeta)
    (tags : GoMap String) (manual plaid : GoMap accountMeta) : transactionView :=
  let normalizedAmount := -tx.ToBase
  let txType := if normalizedAmount > 0 then "income" else "expense"
  let cat : String × String × String :=
    match tx.CategoryID with
    | none => ("", "", txType)
    | some id =>
      match categories id with
      | none => ("", "", txType)
      | some c =>
        if c.IsIncome then (c.Name, c.Group, "income")
        else if c.Name == "Payment, Transfer" then (c.Name, c.Group, "transfer")
        else (c.Name, c.Group, "expense")
  let notes :=
    match tx.Notes with
    | some n => n
    | none => ""
  let tagNames := tx.TagIDs.foldl (fun tagNames tagID =>
    match tags tagID with
    | some name => tagNames ++ [name]
    | none => tagNames) []
  let tagNames := sortStrings tagNames
  let acct : String × String :=
    match tx.ManualAccountID with
    | some id =>
      match manual id with
      | some info => (info.DisplayName, info.Institution)
      | none => (sprintfD "manual:" id, "")
    | none =>
      match tx.PlaidAccountID with
      | some id =>
        match plaid id with
        | some info => (info.DisplayName, info.Institution)
        | none => (sprintfD "plaid:" id, "")
      | none => ("Cash Transaction", "")
  { ID := tx.ID
    Date := tx.Date
    Description := tx.Payee
    Category := cat.1
    Amount := normalizedAmount
    Account := acct.1
    Institution := acct.2
    Group := cat.2.1
    Type_ := cat.2.2
    Notes := notes
    Tags := stringsJoin tagNames ", "
    Status := tx.Status
    IsPending := tx.IsPending }

/-- The comparison passed to `sort.SliceStable` in `sortTransactionsNewestFirst`
(lines 408-414): `a` must come before `b`. -/
def newerThan (a b : transactionView) : Bool :=
  if a.Date != b.Date then stringLess b.Date a.Date else decide (a.ID > b.ID)

/-- `sortTransactionsNewestFirst` (tx.go lines 407-415). `sort.SliceStable`
is the stable sort: an element is placed before the first element of the
sorted rest that is not strictly before it. -/
def sortTransactionsNewestFirst (transactions : List transactionView) : List transactionView :=
  transactions.insertionSort (fun a b => newerThan b a = false)

/-- The view loop of `newTxListCmd` (tx.go lines 119-125). -/
def collectViews (unreviewed : Bool) (transactions : List Transaction)
    (categoryLookup : GoMap categoryMeta) (tagLookup : GoMap String)
    (manualLookup plaidLookup : GoMap accountMeta) : List transactionView :=
  transactions.foldl (fun views tx =>
    if !unreviewed && shouldExcludeFromTotalsFilter tx categoryLookup then views
    else views ++ [toTransactionView tx categoryLookup tagLookup manualLookup plaidLookup]) []

/-- The listing pipeline of `newTxListCmd` after the fetches (tx.go lines
119-127): the view loop followed by the newest-first sort. -/
def listPipeline (unreviewed : Bool) (transactions : List Transaction)
    (categoryLookup : GoMap categoryMeta) (tagLookup : GoMap String)
    (manualLookup plaidLookup : GoMap accountMeta) : List transactionView :=
  sortTransactionsNewestFirst
    (collectViews unreviewed transactions categoryLookup tagLookup manualLookup plaidLookup)

end cli

/-! ## Error decoding and lookup builders -/

namespace lunchmoney

/-- The `Category` struct of `client.go`. -/
structure Category where
  ID : Int
  Name : String
  IsIncome : Bool
  ExcludeFromTotals : Bool
  GroupID : Option Int
  IsGroup : Bool
  Archived : Bool
  deriving DecidableEq

/-- The `ManualAccount` struct of `client.go`. -/
structure ManualAccount where
  ID : Int
  Name : String
  InstitutionName : Option String
  DisplayName : Option String
  deriving DecidableEq

/-- The `PlaidAccount` struct of `client.go`. -/
structure PlaidAccount where
  ID : Int
  Name : String
  InstitutionName : String
  DisplayName : Option String
  deriving DecidableEq

/-- `unicode.IsSpace`: the Latin-1 spaces `\t \n \v \f \r`, space, U+0085 and
U+00A0, and beyond Latin-1 the characters with the White_Space property. -/
def isSpace (c : Char) : Bool :=
  let r := c.toNat
  (0x09 ≤ r && r ≤ 0x0D) || r == 0x20 || r == 0x85 || r == 0xA0 || r == 0x1680 ||
    (0x2000 ≤ r && r ≤ 0x200A) || r == 0x2028 || r == 0x2029 || r == 0x202F ||
    r == 0x205F || r == 0x3000

/-- `strings.TrimSpace`: the string without its leading and trailing white
space. -/
def TrimSpace (s : String) : String :=
  String.mk ((s.data.dropWhile isSpace).reverse.dropWhile isSpace).reverse

/-- An element of the `errors` array of the error envelope decoded by
`decodeAPIError`. -/
structure errorDetail where
  ErrMsg : String
  deriving DecidableEq

/-- The error envelope decoded by `decodeAPIError` (the anonymous struct `e`,
client.go lines 340-345). -/
structure errorEnvelope where
  Message : String
  Errors : List errorDetail
  deriving DecidableEq

/-- The part of an `http.Response` that the client reads: status code and the
whole body. -/
structure Response where
  StatusCode : Int
  Body : String
  deriving DecidableEq

/-- `decodeAPIError` (client.go lines 337-367); the result is the text of the
returned error. `unmarshal` is `json.Unmarshal` into the envelope: `none` when
it reports an error. `strings.Join(parts, "; ")` is `"; ".intercalate parts`. -/
def decodeAPIError (unmarshal : String → Option errorEnvelope) (resp : Response) : String :=
  let body := resp.Body
  match unmarshal body with
  | none =>
    let trimmed := TrimSpace body
    if trimmed == "" then
      "api request failed with status " ++ Itoa resp.StatusCode
    else
      "api request failed with status " ++ Itoa resp.StatusCode ++ ": " ++ trimmed
  | some e =>
    let parts : List String := []
    let parts := if e.Message != "" then parts ++ [e.Message] else parts
    let parts := e.Errors.foldl (fun parts detail =>
      if detail.ErrMsg != "" then parts ++ [detail.ErrMsg] else parts) parts
    if parts.length == 0 then
      "api request failed with status " ++ Itoa resp.StatusCode
    else
      "api request failed with status " ++ Itoa resp.StatusCode ++ ": " ++
        ("; ".intercalate parts)

/-- `containsStatus` (client.go lines 328-335). -/
def containsStatus (allowed : List Int) (got : Int) : Bool :=
  match allowed with
  | [] => false
  | status :: allowed => if status == got then true else containsStatus allowed got

/-- `Client.doJSONWithStatuses` (client.go lines 301-326); the result is the
returned error, `none` for nil. `sent` is the outcome of `httpClient.Do`,
`outIsNil` tells whether `out == nil`, and `decodeOut` is the decoding of the
body into `out`: the decoder error, if any. -/
def doJSONWithStatuses (unmarshal : String → Option errorEnvelope)
    (sent : Except String Response) (expectedStatuses : List Int) (outIsNil : Bool)
    (decodeOut : String → Option String) : Option String :=
  match sent with
  | .error err => some err
  | .ok resp =>
    if !containsStatus expectedStatuses resp.StatusCode then
      some (decodeAPIError unmarshal resp)
    else if outIsNil then none
    else
      match decodeOut resp.Body with
      | some err => some ("failed to decode response: " ++ err)
      | none => none

end lunchmoney

namespace cli

open lunchmoney

/-- The assignment `m[k] = v` on a Go map. -/
def GoMap.insert {V : Type} (m : GoMap V) (k : Int) (v : V) : GoMap V :=
  fun key => if key = k then some v else m key

/-- The plain index expression `m[k]` on a `map[int64]string`: the empty string
when the key is absent. -/
def GoMap.index (m : GoMap String) (k : Int) : String :=
  match m k with
  | some v => v
  | none => ""

/-- `stringOrDefault` (tx.go lines 417-422). -/
def stringOrDefault (v : Option String) (fallback : String) : String :=
  match v with
  | none => fallback
  | some s => s

/-- `buildCategoryLookup` (tx.go lines 267-291). -/
def buildCategoryLookup (categories : List Category) : GoMap categoryMeta :=
  let groups : GoMap String := categories.foldl (fun groups c =>
    if c.IsGroup then GoMap.insert groups c.ID c.Name else groups) (fun _ => none)
  categories.foldl (fun lookup c =>
    let groupName :=
      match c.GroupID with
      | some groupID => GoMap.index groups groupID
      | none => ""
    GoMap.insert lookup c.ID
      { Name := c.Name, Group := groupName, IsIncome := c.IsIncome,
        ExcludeFromTotals := c.ExcludeFromTotals }) (fun _ => none)

/-- `buildManualAccountLookup` (tx.go lines 293-304). -/
def buildManualAccountLookup (accounts : List ManualAccount) : GoMap accountMeta :=
  accounts.foldl (fun lookup a =>
    let display := TrimSpace (stringOrDefault a.DisplayName "")
    let display := if display == "" then a.Name else display
    let inst := TrimSpace (stringOrDefault a.InstitutionName "")
    GoMap.insert lookup a.ID { DisplayName := display, Institution := inst }) (fun _ => none)

/-- `buildPlaidAccountLookup` (tx.go lines 306-316). -/
def buildPlaidAccountLookup (accounts : List PlaidAccount) : GoMap accountMeta :=
  accounts.foldl (fun lookup a =>
    let display := TrimSpace (stringOrDefault a.DisplayName "")
    let display :=
      if display == "" then TrimSpace (stringsJoin [a.InstitutionName, a.Name] " ")
      else display
    GoMap.insert lookup a.ID { DisplayName := display, Institution := a.InstitutionName })
    (fun _ => none)

end cli

/-! ## Sample data -/

/-- A transaction with the given id, date, fetched amount and ids, and no note
or tags. -/
def sampleTx (id : Int) (date : String) (toBase : ℚ) (categoryID manualID plaidID : Option Int) :
    lunchmoney.Transaction :=
  { ID := id, Date := date, Amount := "", ToBase := toBase, Payee := "Shop",
    CategoryID := categoryID, ManualAccountID := manualID, PlaidAccountID := plaidID,
    Notes := none, Status := "reviewed", IsPending := false, TagIDs := [] }

/-- A category lookup with two entries: 7 is "Groceries", 9 is "Salary" (income). -/
def sampleCategories : cli.GoMap cli.categoryMeta := fun id =>
  if id = 7 then some { Name := "Groceries", Group := "", IsIncome := false,
                        ExcludeFromTotals := false }
  else if id = 9 then some { Name := "Salary", Group := "", IsIncome := true,
                             ExcludeFromTotals := false }
  else none

/-- An empty lookup. -/
def emptyLookup (V : Type) : cli.GoMap V := fun _ => none

/-- Listing parameters for reviewed transactions of January 2024. -/
def sampleParams : lunchmoney.ListTransactionsParams :=
  { StartDate := "2024-01-01", EndDate := "2024-01-31", Status := "reviewed",
    IncludePending := false, Limit := 0 }

/-- An error body of the API. -/
def sampleErrorBody : String :=
  "\x7b\"message\": \"bad request\", \"errors\": [" ++
    "\x7b\"errMsg\": \"amount is required\"\x7d, \x7b\"errMsg\": \"\"\x7d, " ++
    "\x7b\"errMsg\": \"date is invalid\"\x7d]\x7d"

/-- The decoding of `sampleErrorBody`; every other body fails to decode. -/
def sampleUnmarshal : String → Option lunchmoney.errorEnvelope := fun body =>
  if body = sampleErrorBody then
    some { Message := "bad request",
           Errors := [⟨"amount is required"⟩, ⟨""⟩, ⟨"date is invalid"⟩] }
  else none

/-- The group "Food". -/
def sampleFood : lunchmoney.Category :=
  { ID := 1, Name := "Food", IsIncome := false, ExcludeFromTotals := false,
    GroupID := none, IsGroup := true, Archived := false }

/-- The category "Groceries" of the group "Food". -/
def sampleGroceries : lunchmoney.Category :=
  { ID := 2, Name := "Groceries", IsIncome := false, ExcludeFromTotals := false,
    GroupID := some 1, IsGroup := false, Archived := false }

/-- A category whose group id refers to "Groceries", which is not a group. -/
def sampleSnacks : lunchmoney.Category :=
  { ID := 3, Name := "Snacks", IsIncome := false, ExcludeFromTotals := true,
    GroupID := some 2, IsGroup := false, Archived := false }

/-- A manual account with an empty display-name override. -/
def sampleChecking : lunchmoney.ManualAccount :=
  { ID := 1, Name := "Checking", InstitutionName := none, DisplayName := some "" }

/-- A plaid account without display-name override. -/
def sampleCreditCard : lunchmoney.PlaidAccount :=
  { ID := 2, Name := "Credit Card", InstitutionName := "Chase", DisplayName := none }

/-! ## Properties of the paginated fetch -/

namespace lunchmoney

theorem listLoop_ok_last (params : ListTransactionsParams) (last : listTransactionsResponse)
    (rest : List Reply) (all : List Transaction) (offset : Int) (sent : List Values)
    (hlast : last.HasMore = false) :
    listLoop params (Except.ok last :: rest) all offset sent =
      { transactions := all ++ last.Transactions, err := none,
        requests := sent ++ [listQuery params offset] } := by
  simp [listLoop, hlast]

theorem listLoop_ok_more (params : ListTransactionsParams) (p : listTransactionsResponse)
    (rest : List Reply) (all : List Transaction) (offset : Int) (sent : List Values)
    (hmore : p.HasMore = true) (hne : p.Transactions ≠ []) :
    listLoop params (Except.ok p :: rest) all offset sent =
      listLoop params rest (all ++ p.Transactions) (offset + (p.Transactions.length : Int))
        (sent ++ [listQuery params offset]) := by
  simp [listLoop, hmore, hne]

theorem listLoop_ok_empty (params : ListTransactionsParams) (p : listTransactionsResponse)
    (rest : List Reply) (all : List Transaction) (offset : Int) (sent : List Values)
    (hmore : p.HasMore = true) (hempty : p.Transactions = []) :
    listLoop params (Except.ok p :: rest) all offset sent =
      { transactions := [],
        err := some "pagination indicated more results but received empty page",
        requests := sent ++ [listQuery params offset] } := by
  simp [listLoop, hmore, hempty]

theorem listLoop_pages (params : ListTransactionsParams) (init : List listTransactionsResponse)
    (last : listTransactionsResponse) (rest : List Reply)
    (hinit : ∀ p ∈ init, p.HasMore = true ∧ p.Transactions ≠ [])
    (hlast : last.HasMore = false) (all : List Transaction) (offset : Int) (sent : List Values) :
    let out := listLoop params ((init ++ [last]).map Except.ok ++ rest) all offset sent
    out.err = none ∧
      out.transactions = all ++ ((init ++ [last]).map (fun p => p.Transactions)).flatten ∧
      out.requests.length = sent.length + (init.length + 1) ∧
      out.crashed = false := by
  induction init generalizing all offset sent with
  | nil =>
    simp [listLoop_ok_last, hlast]
  | cons p init ih =>
    have hp := hinit p (List.mem_cons_self p init)
    have ih2 := ih (fun q hq => hinit q (List.mem_cons_of_mem p hq))
      (all ++ p.Transactions) (offset + (p.Transactions.length : Int))
      (sent ++ [listQuery params offset])
    simp only [List.cons_append, List.map_cons, listLoop_ok_more params p _ all offset sent hp.1 hp.2]
    refine ⟨ih2.1, ?_, ?_, ih2.2.2.2⟩
    · rw [ih2.2.1]; simp
    · rw [ih2.2.2.1]; simp; omega

theorem listLoop_empty_page (params : ListTransactionsParams) (pre : List listTransactionsResponse)
    (bad : listTransactionsResponse) (rest : List Reply)
    (hpre : ∀ p ∈ pre, p.HasMore = true ∧ p.Transactions ≠ [])
    (hmore : bad.HasMore = true) (hempty : bad.Transactions = [])
    (all : List Transaction) (offset : Int) (sent : List Values) :
    let out := listLoop params (pre.map Except.ok ++ Except.ok bad :: rest) all offset sent
    out.err = some "pagination indicated more results but received empty page" ∧
      out.transactions = [] ∧
      out.requests.length = sent.length + (pre.length + 1) ∧
      out.crashed = false := by
  induction pre generalizing all offset sent with
  | nil =>
    simp [listLoop_ok_empty, hmore, hempty]
  | cons p pre ih =>
    have hp := hpre p (List.mem_cons_self p pre)
    have ih2 := ih (fun q hq => hpre q (List.mem_cons_of_mem p hq))
      (all ++ p.Transactions) (offset + (p.Transactions.length : Int))
      (sent ++ [listQuery params offset])
    simp only [List.cons_append, List.map_cons, listLoop_ok_more params p _ all offset sent hp.1 hp.2]
    refine ⟨ih2.1, ih2.2.1, ?_, ih2.2.2.2⟩
    rw [ih2.2.2.1]; simp; omega

theorem ListTransactions_eq_listLoop (available : Nat) (server : List Reply)
    (params : ListTransactionsParams)
    (hstart : params.StartDate ≠ "") (hend : params.EndDate ≠ "") (hstatus : params.Status ≠ "")
    (hmake : makeSucceeds available (if params.Limit ≤ 0 then 1000 else params.Limit) = true) :
    ∃ q : ListTransactionsParams, ListTransactions available server params =
      listLoop q server [] 0 [] := by
  by_cases hl : params.Limit ≤ 0
  · simp only [hl, if_true] at hmake
    exact ⟨{ params with Limit := 1000 },
      by simp [ListTransactions, hstart, hend, hstatus, hl, hmake]⟩
  · simp only [hl, if_false] at hmake
    exact ⟨params, by simp [ListTransactions, hstart, hend, hstatus, hl, hmake]⟩

/-- C1 (as amended): for a page sequence `init ++ [last]` in which every page
of `init` has `has_more = true` and is non-empty and `last` has
`has_more = false`, and for parameters with non-empty start date, end date and
status and a page size (1000 when `Limit ≤ 0`) for which the pre-allocation of
the result slice succeeds, `ListTransactions` returns, without error, exactly the
concatenation of the pages in server order; the result length is the sum of the
page sizes, and exactly one request per page is issued (whatever the server
would have replied afterwards). -/
theorem ListTransactions_concat_pages (available : Nat) (params : ListTransactionsParams)
    (init : List listTransactionsResponse) (last : listTransactionsResponse) (rest : List Reply)
    (hstart : params.StartDate ≠ "") (hend : params.EndDate ≠ "") (hstatus : params.Status ≠ "")
    (hmake : makeSucceeds available (if params.Limit ≤ 0 then 1000 else params.Limit) = true)
    (hinit : ∀ p ∈ init, p.HasMore = true ∧ p.Transactions ≠ [])
    (hlast : last.HasMore = false) :
    (ListTransactions available ((init ++ [last]).map Except.ok ++ rest) params).crashed = false ∧
    (ListTransactions available ((init ++ [last]).map Except.ok ++ rest) params).err = none ∧
    (ListTransactions available ((init ++ [last]).map Except.ok ++ rest) params).transactions =
      ((init ++ [last]).map (fun p => p.Transactions)).flatten ∧
    (ListTransactions available
        ((init ++ [last]).map Except.ok ++ rest) params).transactions.length =
      ((init ++ [last]).map (fun p => p.Transactions.length)).sum ∧
    (ListTransactions available ((init ++ [last]).map Except.ok ++ rest) params).requests.length =
      (init ++ [last]).length := by
  obtain ⟨q, hq⟩ := ListTransactions_eq_listLoop available
    ((init ++ [last]).map Except.ok ++ rest) params hstart hend hstatus hmake
  have h := listLoop_pages q init last rest hinit hlast [] 0 []
  rw [hq]
  refine ⟨h.2.2.2, h.1, by simpa using h.2.1, ?_, by simpa using h.2.2.1⟩
  rw [h.2.1]
  simp [List.length_flatten, Function.comp_def]

/-- C2 (as amended): when the server's page sequence is `pre` (all pages
non-empty with `has_more = true`) followed by a page with `has_more = true` and
zero transactions, and the page size (1000 when `Limit ≤ 0`) is one for which
the pre-allocation of the result slice succeeds, `ListTransactions` returns the
pagination error and no transactions, and the request answered by that page is
the last one issued. -/
theorem ListTransactions_empty_page_fails (available : Nat) (params : ListTransactionsParams)
    (pre : List listTransactionsResponse) (bad : listTransactionsResponse) (rest : List Reply)
    (hstart : params.StartDate ≠ "") (hend : params.EndDate ≠ "") (hstatus : params.Status ≠ "")
    (hmake : makeSucceeds available (if params.Limit ≤ 0 then 1000 else params.Limit) = true)
    (hpre : ∀ p ∈ pre, p.HasMore = true ∧ p.Transactions ≠ [])
    (hmore : bad.HasMore = true) (hempty : bad.Transactions = []) :
    (ListTransactions available (pre.map Except.ok ++ Except.ok bad :: rest) params).crashed =
      false ∧
    (ListTransactions available (pre.map Except.ok ++ Except.ok bad :: rest) params).err =
      some "pagination indicated more results but received empty page" ∧
    (ListTransactions available (pre.map Except.ok ++ Except.ok bad :: rest) params).transactions =
      [] ∧
    (ListTransactions available
        (pre.map Except.ok ++ Except.ok bad :: rest) params).requests.length =
      pre.length + 1 := by
  obtain ⟨q, hq⟩ := ListTransactions_eq_listLoop available
    (pre.map Except.ok ++ Except.ok bad :: rest) params hstart hend hstatus hmake
  have h := listLoop_empty_page q pre bad rest hpre hmore hempty [] 0 []
  rw [hq]
  exact ⟨h.2.2.2, h.1, h.2.1, by simpa using h.2.2.1⟩

/-- C3: with non-empty dates, an empty status and the pending filter set,
`ListTransactions` rejects the parameters with "status is required" and issues
no request, whatever the server and the memory; and no query built by the listing loop carries
an `is_pending` key, each carries the status. -/
theorem ListTransactions_pending_only_rejected (available : Nat) (server : List Reply) :
    ListTransactions available server
        { StartDate := "2024-01-01", EndDate := "2024-01-31", Status := "",
          IncludePending := true, Limit := 1000 } =
      { transactions := [], err := some "status is required", requests := [] } ∧
    ∀ (params : ListTransactionsParams) (offset : Int),
      (listQuery params offset).Has "is_pending" = false ∧
      (listQuery params offset).Get "status" = some params.Status := by
  refine ⟨by simp [ListTransactions], ?_⟩
  intro params offset
  cases h : params.IncludePending <;> simp [listQuery, Values.Set, Values.Has, Values.Get, h]

end lunchmoney

namespace cli
open lunchmoney

/-! ## Properties of the view normalizer, the filter and the sort -/

theorem lexLess_iff (as bs : List Char) : lexLess as bs = true ↔ List.lt as bs := by
  induction as generalizing bs with
  | nil =>
    cases bs with
    | nil => simp [lexLess]; intro h; cases h
    | cons b bs => simp [lexLess]; exact List.lt.nil b bs
  | cons a as ih =>
    cases bs with
    | nil => simp [lexLess]; intro h; cases h
    | cons b bs =>
      unfold lexLess
      by_cases h1 : a < b
      · simp [h1]; exact List.lt.head as bs h1
      · by_cases h2 : b < a
        · simp only [h1, h2, if_true, if_false]
          constructor
          · intro h; cases h
          · intro h
            cases h with
            | head _ _ h => exact absurd h h1
            | tail _ h _ => exact absurd h2 h
        · simp only [h1, h2, if_false, ih]
          constructor
          · intro h; exact List.lt.tail h1 h2 h
          · intro h
            cases h with
            | head _ _ h => exact absurd h h1
            | tail _ _ h => exact h

theorem stringLess_iff (a b : String) : stringLess a b = true ↔ a < b := by
  rw [String.lt_iff_toList_lt]
  exact (lexLess_iff a.data b.data).trans (List.lt_iff_lex_lt a.data b.data)

theorem stringLess_eq_false_iff (a b : String) : stringLess a b = false ↔ b ≤ a := by
  rw [← not_lt, ← stringLess_iff]; simp

theorem newerThan_iff (a b : transactionView) :
    newerThan a b = true ↔ b.Date < a.Date ∨ (a.Date = b.Date ∧ b.ID < a.ID) := by
  unfold newerThan
  by_cases h : a.Date = b.Date
  · simp [h]
  · simp [h, stringLess_iff]

theorem newerThan_eq_false_iff (a b : transactionView) :
    newerThan b a = false ↔ b.Date < a.Date ∨ (a.Date = b.Date ∧ b.ID ≤ a.ID) := by
  rw [← Bool.not_eq_true, newerThan_iff]
  constructor
  · intro h
    push_neg at h
    rcases lt_trichotomy a.Date b.Date with h1 | h1 | h1
    · exact absurd h1 h.1
    · exact Or.inr ⟨h1, h.2 h1.symm⟩
    · exact Or.inl h1
  · rintro (h | ⟨h1, h2⟩)
    · rintro (h3 | ⟨h3, _⟩)
      · exact absurd h3 (lt_asymm h)
      · exact absurd h (by rw [h3]; exact lt_irrefl _)
    · rintro (h3 | ⟨_, h4⟩)
      · exact absurd h3 (by rw [h1]; exact lt_irrefl _)
      · exact absurd h4 (not_lt.mpr h2)

theorem notNewer_total (a b : transactionView) :
    newerThan b a = false ∨ newerThan a b = false := by
  rw [newerThan_eq_false_iff, newerThan_eq_false_iff]
  rcases lt_trichotomy a.Date b.Date with h | h | h
  · exact Or.inr (Or.inl h)
  · rcases le_total a.ID b.ID with h2 | h2
    · exact Or.inr (Or.inr ⟨h.symm, h2⟩)
    · exact Or.inl (Or.inr ⟨h, h2⟩)
  · exact Or.inl (Or.inl h)

theorem notNewer_trans (a b c : transactionView)
    (hab : newerThan b a = false) (hbc : newerThan c b = false) : newerThan c a = false := by
  rw [newerThan_eq_false_iff] at *
  rcases hab with h1 | ⟨h1, h2⟩
  · rcases hbc with h3 | ⟨h3, _⟩
    · exact Or.inl (lt_trans h3 h1)
    · exact Or.inl (h3 ▸ h1)
  · rcases hbc with h3 | ⟨h3, h4⟩
    · exact Or.inl (h1 ▸ h3)
    · exact Or.inr ⟨h1.trans h3, le_trans h4 h2⟩

theorem filter_orderedInsert {α : Type} (r : α → α → Prop) [DecidableRel r] (p : α → Bool)
    (hp : ∀ x y, p x = true → p y = true → r x y) (a : α) (s : List α) :
    (s.orderedInsert r a).filter p = (a :: s).filter p := by
  induction s with
  | nil => simp
  | cons b s ih =>
    by_cases hr : r a b
    · simp [List.orderedInsert, hr]
    · have hab : ¬ (p a = true ∧ p b = true) := fun h => hr (hp a b h.1 h.2)
      simp only [List.orderedInsert, hr, if_false]
      rw [List.filter_cons, ih]
      by_cases ha : p a = true
      · have hb : p b = false := by
          cases hpb : p b with
          | false => rfl
          | true => exact absurd ⟨ha, hpb⟩ hab
        simp [List.filter_cons, ha, hb]
      · simp [List.filter_cons, ha]

theorem filter_insertionSort {α : Type} (r : α → α → Prop) [DecidableRel r] (p : α → Bool)
    (hp : ∀ x y, p x = true → p y = true → r x y) (l : List α) :
    (l.insertionSort r).filter p = l.filter p := by
  induction l with
  | nil => simp
  | cons a l ih =>
    rw [List.insertionSort, filter_orderedInsert r p hp, List.filter_cons, List.filter_cons, ih]

/-- C5: `sortTransactionsNewestFirst` returns a permutation of its input in
which, for every pair of positions `i < j`, the date at `i` is lexically greater
than the date at `j`, or the dates are equal and the id at `i` is at least the
id at `j`; and it is stable: for every date and id, the views carrying that date
and id appear in the output in their input order. -/
theorem sortTransactionsNewestFirst_sorted_stable (views : List transactionView) :
    (sortTransactionsNewestFirst views).Perm views ∧
    (sortTransactionsNewestFirst views).Pairwise
      (fun a b => b.Date < a.Date ∨ (a.Date = b.Date ∧ b.ID ≤ a.ID)) ∧
    ∀ (date : String) (id : Int),
      (sortTransactionsNewestFirst views).filter (fun v => decide (v.Date = date ∧ v.ID = id)) =
        views.filter (fun v => decide (v.Date = date ∧ v.ID = id)) := by
  refine ⟨List.perm_insertionSort _ views, ?_, ?_⟩
  · haveI : IsTotal transactionView (fun a b => newerThan b a = false) := ⟨notNewer_total⟩
    haveI : IsTrans transactionView (fun a b => newerThan b a = false) := ⟨notNewer_trans⟩
    have h := List.sorted_insertionSort (fun a b => newerThan b a = false) views
    exact List.Pairwise.imp (fun {a b} hab => (newerThan_eq_false_iff a b).mp hab) h
  · intro date id
    apply filter_insertionSort
    intro x y hx hy
    simp only [decide_eq_true_eq] at hx hy
    rw [newerThan_eq_false_iff]
    exact Or.inr ⟨hx.1.trans hy.1.symm, le_of_eq (hy.2.trans hx.2.symm)⟩

theorem foldl_append_if {α β : Type} (c : α → Bool) (f : α → β) (l : List α) (init : List β) :
    l.foldl (fun acc x => if c x then acc else acc ++ [f x]) init =
      init ++ (l.filter (fun x => !c x)).map f := by
  induction l generalizing init with
  | nil => simp
  | cons a l ih =>
    rw [List.foldl_cons, ih]
    by_cases h : c a = true
    · simp [h]
    · simp [h]

theorem collectViews_eq (unreviewed : Bool) (transactions : List Transaction)
    (categoryLookup : GoMap categoryMeta) (tagLookup : GoMap String)
    (manualLookup plaidLookup : GoMap accountMeta) :
    collectViews unreviewed transactions categoryLookup tagLookup manualLookup plaidLookup =
      (transactions.filter
        (fun tx => !(!unreviewed && shouldExcludeFromTotalsFilter tx categoryLookup))).map
        (fun tx => toTransactionView tx categoryLookup tagLookup manualLookup plaidLookup) := by
  unfold collectViews
  rw [foldl_append_if (fun tx => !unreviewed && shouldExcludeFromTotalsFilter tx categoryLookup)]
  simp

theorem shouldExclude_iff (tx : Transaction) (categories : GoMap categoryMeta) :
    shouldExcludeFromTotalsFilter tx categories = true ↔
      ∃ id c, tx.CategoryID = some id ∧ categories id = some c ∧ c.ExcludeFromTotals = true := by
  unfold shouldExcludeFromTotalsFilter
  cases h1 : tx.CategoryID with
  | none => simp
  | some id =>
    cases h2 : categories id with
    | none => simp [h2]
    | some c => simp [h2]

/-- C4: in the listing pipeline, `shouldExcludeFromTotalsFilter` holds exactly
for the transactions that have a category id present in the category lookup with
exclude-from-totals set; when listing reviewed transactions (`unreviewed = false`)
the views are those of exactly the transactions for which it does not hold, in
order; when listing unreviewed or pending transactions (`unreviewed = true`)
there is one view per fetched transaction; the final sort only permutes the
views. -/
theorem listPipeline_exclude_from_totals (transactions : List Transaction)
    (categoryLookup : GoMap categoryMeta) (tagLookup : GoMap String)
    (manualLookup plaidLookup : GoMap accountMeta) :
    (∀ tx, shouldExcludeFromTotalsFilter tx categoryLookup = true ↔
      ∃ id c, tx.CategoryID = some id ∧ categoryLookup id = some c ∧
        c.ExcludeFromTotals = true) ∧
    collectViews false transactions categoryLookup tagLookup manualLookup plaidLookup =
      (transactions.filter (fun tx => !shouldExcludeFromTotalsFilter tx categoryLookup)).map
        (fun tx => toTransactionView tx categoryLookup tagLookup manualLookup plaidLookup) ∧
    collectViews true transactions categoryLookup tagLookup manualLookup plaidLookup =
      transactions.map
        (fun tx => toTransactionView tx categoryLookup tagLookup manualLookup plaidLookup) ∧
    (listPipeline true transactions categoryLookup tagLookup manualLookup plaidLookup).length =
      transactions.length ∧
    ∀ unreviewed,
      (listPipeline unreviewed transactions categoryLookup tagLookup manualLookup plaidLookup).Perm
        (collectViews unreviewed transactions categoryLookup tagLookup manualLookup plaidLookup) := by
  have hperm : ∀ unreviewed,
      (listPipeline unreviewed transactions categoryLookup tagLookup manualLookup plaidLookup).Perm
        (collectViews unreviewed transactions categoryLookup tagLookup manualLookup plaidLookup) :=
    fun unreviewed => List.perm_insertionSort _ _
  refine ⟨fun tx => shouldExclude_iff tx categoryLookup, ?_, ?_, ?_, hperm⟩
  · rw [collectViews_eq]; simp
  · rw [collectViews_eq]; simp
  · rw [(hperm true).length_eq, collectViews_eq]; simp

/-- C6: when the transaction's category id is present in the category lookup
with the income flag set, `toTransactionView` gives type "income", for every
amount and every category name. -/
theorem toTransactionView_income_category (tx : Transaction) (categories : GoMap categoryMeta)
    (tags : GoMap String) (manual plaid : GoMap accountMeta) (id : Int) (c : categoryMeta)
    (hid : tx.CategoryID = some id) (hc : categories id = some c) (hincome : c.IsIncome = true) :
    (toTransactionView tx categories tags manual plaid).Type_ = "income" := by
  simp [toTransactionView, hid, hc, hincome]

/-- C7: when the transaction has no category id, or one that is absent from
the category lookup, the view amount is the negation of the fetched amount, the
type is "income" when the view amount is positive and "expense" when it is
negative, the type is never "transfer", and category and group are empty. -/
theorem toTransactionView_no_category (tx : Transaction) (categories : GoMap categoryMeta)
    (tags : GoMap String) (manual plaid : GoMap accountMeta)
    (hcat : tx.CategoryID = none ∨ ∃ id, tx.CategoryID = some id ∧ categories id = none) :
    (toTransactionView tx categories tags manual plaid).Amount = -tx.ToBase ∧
    ((toTransactionView tx categories tags manual plaid).Amount > 0 →
      (toTransactionView tx categories tags manual plaid).Type_ = "income") ∧
    ((toTransactionView tx categories tags manual plaid).Amount < 0 →
      (toTransactionView tx categories tags manual plaid).Type_ = "expense") ∧
    (toTransactionView tx categories tags manual plaid).Type_ ≠ "transfer" ∧
    (toTransactionView tx categories tags manual plaid).Category = "" ∧
    (toTransactionView tx categories tags manual plaid).Group = "" := by
  have hsign : (0 < -tx.ToBase → ¬ (-tx.ToBase < 0)) := fun h => not_lt.mpr (le_of_lt h)
  rcases hcat with h | ⟨id, h1, h2⟩
  · by_cases hpos : 0 < -tx.ToBase
    · simpa [toTransactionView, h, hpos] using hsign hpos
    · simp [toTransactionView, h, hpos]
  · by_cases hpos : 0 < -tx.ToBase
    · simpa [toTransactionView, h1, h2, hpos] using hsign hpos
    · simp [toTransactionView, h1, h2, hpos]

/-- C8: when the transaction's category id resolves to a category without the
income flag, the view amount is the negation of the fetched amount and the type
is "transfer" if the category name is exactly "Payment, Transfer" and "expense"
otherwise, whatever the sign of the amount. -/
theorem toTransactionView_category_precedence (tx : Transaction)
    (categories : GoMap categoryMeta) (tags : GoMap String) (manual plaid : GoMap accountMeta)
    (id : Int) (c : categoryMeta)
    (hid : tx.CategoryID = some id) (hc : categories id = some c) (hincome : c.IsIncome = false) :
    (toTransactionView tx categories tags manual plaid).Amount = -tx.ToBase ∧
    (toTransactionView tx categories tags manual plaid).Type_ =
      (if c.Name = "Payment, Transfer" then "transfer" else "expense") := by
  by_cases h : c.Name = "Payment, Transfer" <;>
    simp [toTransactionView, hid, hc, hincome, h]

theorem foldl_tagNames (tags : GoMap String) (tagIDs : List Int) (init : List String) :
    tagIDs.foldl (fun tagNames tagID =>
      match tags tagID with
      | some name => tagNames ++ [name]
      | none => tagNames) init = init ++ tagIDs.filterMap tags := by
  induction tagIDs generalizing init with
  | nil => simp
  | cons a l ih =>
    rw [List.foldl_cons, ih]
    cases h : tags a <;> simp [List.filterMap_cons, h]

/-- C9: the tag text of the view is the ", "-join of a list of names that is
sorted increasingly, is a rearrangement of the lookup names of the transaction's
tag ids that are present in the tag lookup (ids absent from it contribute
nothing), and each of whose names is the lookup name of one of the transaction's
tag ids. -/
theorem toTransactionView_tags (tx : Transaction) (categories : GoMap categoryMeta)
    (tags : GoMap String) (manual plaid : GoMap accountMeta) :
    ∃ names : List String,
      (toTransactionView tx categories tags manual plaid).Tags = stringsJoin names ", " ∧
      names.Pairwise (fun a b => a ≤ b) ∧
      names.Perm (tx.TagIDs.filterMap tags) ∧
      ∀ name ∈ names, ∃ id ∈ tx.TagIDs, tags id = some name := by
  have hfold := foldl_tagNames tags tx.TagIDs []
  rw [List.nil_append] at hfold
  refine ⟨sortStrings (tx.TagIDs.filterMap tags), ?_, ?_, ?_, ?_⟩
  · simp only [toTransactionView, hfold]
  · haveI : IsTotal String (fun a b => stringLess b a = false) :=
      ⟨fun a b => by simp only [stringLess_eq_false_iff]; exact le_total a b⟩
    haveI : IsTrans String (fun a b => stringLess b a = false) :=
      ⟨fun a b c => by simp only [stringLess_eq_false_iff]; exact le_trans⟩
    have h := List.sorted_insertionSort (fun a b => stringLess b a = false)
      (tx.TagIDs.filterMap tags)
    exact List.Pairwise.imp (fun {a b} hab => (stringLess_eq_false_iff b a).mp hab) h
  · exact List.perm_insertionSort _ _
  · intro name hname
    have hmem : name ∈ tx.TagIDs.filterMap tags :=
      (List.perm_insertionSort _ _).mem_iff.mp hname
    rw [List.mem_filterMap] at hmem
    exact hmem

/-- C10: account resolution. With a manual-account id: the manual lookup's
entry, or on a miss "manual:<id>" with empty institution. Without one but with a
plaid-account id: the plaid lookup's entry, or on a miss "plaid:<id>" with empty
institution. With neither: "Cash Transaction" with empty institution. -/
theorem toTransactionView_account (tx : Transaction) (categories : GoMap categoryMeta)
    (tags : GoMap String) (manual plaid : GoMap accountMeta) :
    (∀ id info, tx.ManualAccountID = some id → manual id = some info →
      (toTransactionView tx categories tags manual plaid).Account = info.DisplayName ∧
      (toTransactionView tx categories tags manual plaid).Institution = info.Institution) ∧
    (∀ id, tx.ManualAccountID = some id → manual id = none →
      (toTransactionView tx categories tags manual plaid).Account = sprintfD "manual:" id ∧
      (toTransactionView tx categories tags manual plaid).Institution = "") ∧
    (∀ id info, tx.ManualAccountID = none → tx.PlaidAccountID = some id → plaid id = some info →
      (toTransactionView tx categories tags manual plaid).Account = info.DisplayName ∧
      (toTransactionView tx categories tags manual plaid).Institution = info.Institution) ∧
    (∀ id, tx.ManualAccountID = none → tx.PlaidAccountID = some id → plaid id = none →
      (toTransactionView tx categories tags manual plaid).Account = sprintfD "plaid:" id ∧
      (toTransactionView tx categories tags manual plaid).Institution = "") ∧
    (tx.ManualAccountID = none → tx.PlaidAccountID = none →
      (toTransactionView tx categories tags manual plaid).Account = "Cash Transaction" ∧
      (toTransactionView tx categories tags manual plaid).Institution = "") := by
  refine ⟨?_, ?_, ?_, ?_, ?_⟩
  · intro id info h1 h2; simp [toTransactionView, h1, h2]
  · intro id h1 h2; simp [toTransactionView, h1, h2]
  · intro id info h0 h1 h2; simp [toTransactionView, h0, h1, h2]
  · intro id h0 h1 h2; simp [toTransactionView, h0, h1, h2]
  · intro h0 h1; simp [toTransactionView, h0, h1]

end cli

/-! ## Properties of the error decoding and the lookup builders -/

namespace lunchmoney

theorem containsStatus_iff (allowed : List Int) (got : Int) :
    containsStatus allowed got = true ↔ got ∈ allowed := by
  induction allowed with
  | nil => simp [containsStatus]
  | cons status allowed ih =>
    unfold containsStatus
    by_cases h : status = got
    · simp [h]
    · have h2 : ¬ got = status := fun e => h e.symm
      simp [h, h2, ih]

theorem foldl_parts (details : List errorDetail) (init : List String) :
    details.foldl (fun parts detail =>
      if detail.ErrMsg != "" then parts ++ [detail.ErrMsg] else parts) init =
      init ++ (details.map (fun d => d.ErrMsg)).filter (fun m => m != "") := by
  induction details generalizing init with
  | nil => simp
  | cons d details ih =>
    rw [List.foldl_cons, ih]
    by_cases h : d.ErrMsg = ""
    · simp [h]
    · simp [h]

/-- C11: for a response whose status code is not among the expected ones,
`doJSONWithStatuses` returns the error of `decodeAPIError`. When the body parses
as the envelope, its text is "api request failed with status c: " followed by the
non-empty messages (the top-level message, then the per-item messages in order)
joined with "; ", or the bare "api request failed with status c" when there is no
non-empty message. When the body does not parse, it is the bare form if the
trimmed body is empty, and otherwise the bare form, ": " and the trimmed body. -/
theorem decodeAPIError_message (unmarshal : String → Option errorEnvelope) (resp : Response)
    (expectedStatuses : List Int) (outIsNil : Bool) (decodeOut : String → Option String)
    (hstatus : resp.StatusCode ∉ expectedStatuses) :
    doJSONWithStatuses unmarshal (Except.ok resp) expectedStatuses outIsNil decodeOut =
      some (decodeAPIError unmarshal resp) ∧
    (∀ e, unmarshal resp.Body = some e →
      decodeAPIError unmarshal resp =
        if (e.Message :: e.Errors.map (fun d => d.ErrMsg)).filter (fun m => m != "") = [] then
          "api request failed with status " ++ Itoa resp.StatusCode
        else
          "api request failed with status " ++ Itoa resp.StatusCode ++ ": " ++
            "; ".intercalate ((e.Message :: e.Errors.map (fun d => d.ErrMsg)).filter
              (fun m => m != ""))) ∧
    (unmarshal resp.Body = none →
      decodeAPIError unmarshal resp =
        if TrimSpace resp.Body = "" then
          "api request failed with status " ++ Itoa resp.StatusCode
        else
          "api request failed with status " ++ Itoa resp.StatusCode ++ ": " ++
            TrimSpace resp.Body) := by
  refine ⟨?_, ?_, ?_⟩
  · have h : containsStatus expectedStatuses resp.StatusCode = false := by
      rw [← Bool.not_eq_true, containsStatus_iff]; exact hstatus
    simp [doJSONWithStatuses, h]
  · intro e he
    simp only [decodeAPIError, he, foldl_parts]
    by_cases hm : e.Message = ""
    · simp [hm, List.filter_cons]
    · simp [hm, List.filter_cons]
  · intro hnone
    simp [decodeAPIError, hnone]

end lunchmoney

namespace cli
open lunchmoney

theorem foldl_insert_miss {α V : Type} (key : α → Int) (val : α → V) (l : List α)
    (m0 : GoMap V) (k : Int) (h : ∀ a ∈ l, key a ≠ k) :
    (l.foldl (fun m a => GoMap.insert m (key a) (val a)) m0) k = m0 k := by
  induction l generalizing m0 with
  | nil => rfl
  | cons x l ih =>
    rw [List.foldl_cons, ih _ (fun a ha => h a (List.mem_cons_of_mem x ha))]
    have hx : ¬ k = key x := fun e => h x (List.mem_cons_self x l) e.symm
    simp [GoMap.insert, hx]

theorem foldl_insert_hit {α V : Type} (key : α → Int) (val : α → V) (l : List α)
    (m0 : GoMap V) (a : α) (ha : a ∈ l) (huniq : ∀ b ∈ l, key b = key a → val b = val a) :
    (l.foldl (fun m x => GoMap.insert m (key x) (val x)) m0) (key a) = some (val a) := by
  induction l generalizing m0 a with
  | nil => cases ha
  | cons x l ih =>
    rw [List.foldl_cons]
    by_cases hex : ∃ b ∈ l, key b = key a
    · obtain ⟨b, hb, hkey⟩ := hex
      have hval : val b = val a := huniq b (List.mem_cons_of_mem x hb) hkey
      have hb2 := ih (GoMap.insert m0 (key x) (val x)) b hb
        (fun c hc hck => by
          rw [huniq c (List.mem_cons_of_mem x hc) (hck.trans hkey), hval])
      rw [hkey, hval] at hb2
      exact hb2
    · have hmiss : ∀ b ∈ l, key b ≠ key a := fun b hb e => hex ⟨b, hb, e⟩
      rw [foldl_insert_miss key val l _ (key a) hmiss]
      have hax : a = x := by
        rcases List.mem_cons.mp ha with h | h
        · exact h
        · exact absurd rfl (hmiss a h)
      simp [GoMap.insert, hax]

theorem foldl_insert_mem {α V : Type} (key : α → Int) (val : α → V) (l : List α)
    (m0 : GoMap V) (k : Int) (v : V)
    (h : (l.foldl (fun m x => GoMap.insert m (key x) (val x)) m0) k = some v) :
    m0 k = some v ∨ ∃ a ∈ l, key a = k ∧ val a = v := by
  induction l generalizing m0 with
  | nil => exact Or.inl h
  | cons x l ih =>
    rw [List.foldl_cons] at h
    rcases ih _ h with h1 | ⟨a, ha, hk, hv⟩
    · by_cases hkx : k = key x
      · right
        refine ⟨x, List.mem_cons_self x l, hkx.symm, ?_⟩
        simpa [GoMap.insert, hkx] using h1
      · left
        simpa [GoMap.insert, hkx] using h1
    · exact Or.inr ⟨a, List.mem_cons_of_mem x ha, hk, hv⟩

theorem foldl_insert_if {α V : Type} (p : α → Bool) (key : α → Int) (val : α → V) (l : List α)
    (m0 : GoMap V) :
    l.foldl (fun m x => if p x then GoMap.insert m (key x) (val x) else m) m0 =
      (l.filter p).foldl (fun m x => GoMap.insert m (key x) (val x)) m0 := by
  induction l generalizing m0 with
  | nil => rfl
  | cons x l ih =>
    rw [List.foldl_cons, ih]
    by_cases h : p x = true
    · simp [List.filter_cons, h]
    · simp [List.filter_cons, h]

theorem TrimSpace_of_all_space (s : String) (h : ∀ c ∈ s.data, isSpace c = true) :
    TrimSpace s = "" := by
  have h1 : s.data.dropWhile isSpace = [] := List.dropWhile_eq_nil_iff.mpr h
  simp [TrimSpace, h1]


theorem foldl_insert_lookup {α V : Type} (key : α → Int) (val : α → V) (l : List α)
    (hinj : ∀ x ∈ l, ∀ y ∈ l, key x = key y → x = y) :
    (∀ k, ((l.foldl (fun m x => GoMap.insert m (key x) (val x)) (fun _ => none)) k).isSome = true ↔
      ∃ a ∈ l, key a = k) ∧
    ∀ a ∈ l, (l.foldl (fun m x => GoMap.insert m (key x) (val x)) (fun _ => none)) (key a) =
      some (val a) := by
  have hhit : ∀ a ∈ l,
      (l.foldl (fun m x => GoMap.insert m (key x) (val x)) (fun _ => none)) (key a) =
        some (val a) :=
    fun a ha => foldl_insert_hit key val l (fun _ => none) a ha
      (fun b hb hkey => by rw [hinj b hb a ha hkey])
  refine ⟨fun k => ⟨?_, ?_⟩, hhit⟩
  · intro hsome
    obtain ⟨v, hv⟩ := Option.isSome_iff_exists.mp hsome
    rcases foldl_insert_mem key val l _ k v hv with h | ⟨a, ha, hk, _⟩
    · cases h
    · exact ⟨a, ha, hk⟩
  · rintro ⟨a, ha, rfl⟩
    exact Option.isSome_iff_exists.mpr ⟨_, hhit a ha⟩

/-- C12: for a category list with pairwise distinct ids, the keys of
`buildCategoryLookup` are exactly the ids of the list, and each entry `c` is
mapped to its name, income flag and exclude-from-totals flag together with a
group name `g` that is empty when `c` has no group id, is the name of the entry
with that id when that entry is a group, and is empty when no entry with that id
is a group. -/
theorem buildCategoryLookup_resolves_groups (categories : List Category)
    (hnodup : (categories.map (fun c => c.ID)).Nodup) :
    (∀ id, (buildCategoryLookup categories id).isSome = true ↔ ∃ c ∈ categories, c.ID = id) ∧
    ∀ c ∈ categories, ∃ g : String,
      buildCategoryLookup categories c.ID =
        some { Name := c.Name, Group := g, IsIncome := c.IsIncome,
               ExcludeFromTotals := c.ExcludeFromTotals } ∧
      (c.GroupID = none → g = "") ∧
      ∀ gid, c.GroupID = some gid →
        (∀ p ∈ categories, p.ID = gid → p.IsGroup = true → g = p.Name) ∧
        ((∀ p ∈ categories, p.ID = gid → p.IsGroup = false) → g = "") := by
  have hinj : ∀ x ∈ categories, ∀ y ∈ categories, x.ID = y.ID → x = y :=
    fun x hx y hy h => List.inj_on_of_nodup_map hnodup hx hy h
  -- the first pass: the names of the groups
  obtain ⟨groups, hdef⟩ : ∃ groups : GoMap String,
      groups = categories.foldl (fun groups c =>
        if c.IsGroup then GoMap.insert groups c.ID c.Name else groups) (fun _ => none) :=
    ⟨_, rfl⟩
  have hfilter := hdef.trans (foldl_insert_if (fun c : Category => c.IsGroup)
    (fun c => c.ID) (fun c => c.Name) categories (fun _ => none))
  have hgroupHit : ∀ p ∈ categories, p.IsGroup = true → groups p.ID = some p.Name := by
    intro p hp hgrp
    rw [hfilter]
    apply foldl_insert_hit (fun c : Category => c.ID) (fun c => c.Name)
    · exact List.mem_filter.mpr ⟨hp, hgrp⟩
    · intro b hb hkey
      rw [hinj b (List.mem_filter.mp hb).1 p hp hkey]
  have hgroupMiss : ∀ gid, (∀ p ∈ categories, p.ID = gid → p.IsGroup = false) →
      groups gid = none := by
    intro gid hno
    rw [hfilter, foldl_insert_miss (fun c : Category => c.ID) (fun c => c.Name)]
    intro a ha hkey
    have hfalse := hno a (List.mem_filter.mp ha).1 hkey
    rw [(List.mem_filter.mp ha).2] at hfalse
    exact Bool.noConfusion hfalse
  -- the second pass: one entry per category
  have hbuild : buildCategoryLookup categories =
      categories.foldl (fun lookup c => GoMap.insert lookup c.ID
        ({ Name := c.Name
           Group := (match c.GroupID with
             | some groupID => GoMap.index groups groupID
             | none => "")
           IsIncome := c.IsIncome
           ExcludeFromTotals := c.ExcludeFromTotals } : categoryMeta)) (fun _ => none) := by
    rw [hdef]; rfl
  obtain ⟨hkeys, hentries⟩ := foldl_insert_lookup (fun c : Category => c.ID)
    (fun c => ({ Name := c.Name
                 Group := (match c.GroupID with
                   | some groupID => GoMap.index groups groupID
                   | none => "")
                 IsIncome := c.IsIncome
                 ExcludeFromTotals := c.ExcludeFromTotals } : categoryMeta)) categories hinj
  rw [hbuild]
  refine ⟨hkeys, ?_⟩
  intro c hc
  refine ⟨_, hentries c hc, ?_, ?_⟩
  · intro hnone
    simp [hnone]
  · intro gid hgid
    constructor
    · intro p hp hpid hgrp
      have hname := hgroupHit p hp hgrp
      rw [hpid] at hname
      simp [hgid, GoMap.index, hname]
    · intro hno
      simp [hgid, GoMap.index, hgroupMiss gid hno]


theorem stringsJoin_pair (a b sep : String) : stringsJoin [a, b] sep = a ++ sep ++ b := by
  simp [stringsJoin, String.intercalate, String.intercalate.go]

theorem buildManualAccountLookup_entry (accounts : List ManualAccount) (a : ManualAccount)
    (ha : a ∈ accounts) (huniq : ∀ b ∈ accounts, b.ID = a.ID → b = a) :
    buildManualAccountLookup accounts a.ID =
      some { DisplayName :=
               if TrimSpace (stringOrDefault a.DisplayName "") = "" then a.Name
               else TrimSpace (stringOrDefault a.DisplayName "")
             Institution := TrimSpace (stringOrDefault a.InstitutionName "") } := by
  have h := foldl_insert_hit (fun x : ManualAccount => x.ID)
    (fun x => ({ DisplayName :=
                   if TrimSpace (stringOrDefault x.DisplayName "") == "" then x.Name
                   else TrimSpace (stringOrDefault x.DisplayName "")
                 Institution := TrimSpace (stringOrDefault x.InstitutionName "") } : accountMeta))
    accounts (fun _ => none) a ha (fun b hb hkey => by rw [huniq b hb hkey])
  simpa [buildManualAccountLookup] using h

theorem buildPlaidAccountLookup_entry (accounts : List PlaidAccount) (a : PlaidAccount)
    (ha : a ∈ accounts) (huniq : ∀ b ∈ accounts, b.ID = a.ID → b = a) :
    buildPlaidAccountLookup accounts a.ID =
      some { DisplayName :=
               if TrimSpace (stringOrDefault a.DisplayName "") = ""
               then TrimSpace (a.InstitutionName ++ " " ++ a.Name)
               else TrimSpace (stringOrDefault a.DisplayName "")
             Institution := a.InstitutionName } := by
  have h := foldl_insert_hit (fun x : PlaidAccount => x.ID)
    (fun x => ({ DisplayName :=
                   if TrimSpace (stringOrDefault x.DisplayName "") == ""
                   then TrimSpace (stringsJoin [x.InstitutionName, x.Name] " ")
                   else TrimSpace (stringOrDefault x.DisplayName "")
                 Institution := x.InstitutionName } : accountMeta))
    accounts (fun _ => none) a ha (fun b hb hkey => by rw [huniq b hb hkey])
  simpa [buildPlaidAccountLookup, stringsJoin_pair] using h

/-- C13: for an account whose id no other account of the list carries, the
display name in the lookup is the trimmed display-name override when that is
non-empty; when the override is absent or trims to the empty string (as every
empty or whitespace-only string does) it is the raw name for a manual account and
the trimmed `institution name ++ " " ++ name` for a plaid account. The
institution is the trimmed institution name, or empty when absent, for a manual
account and the institution name as it is for a plaid account. -/
theorem accountLookup_display_name
    (manualAccounts : List ManualAccount) (m : ManualAccount) (hm : m ∈ manualAccounts)
    (hmuniq : ∀ b ∈ manualAccounts, b.ID = m.ID → b = m)
    (plaidAccounts : List PlaidAccount) (p : PlaidAccount) (hp : p ∈ plaidAccounts)
    (hpuniq : ∀ b ∈ plaidAccounts, b.ID = p.ID → b = p) :
    (∀ s : String, (∀ c ∈ s.data, isSpace c = true) → TrimSpace s = "") ∧
    (∀ d, m.DisplayName = some d → TrimSpace d ≠ "" →
      (buildManualAccountLookup manualAccounts m.ID).map (fun e => e.DisplayName) =
        some (TrimSpace d)) ∧
    ((m.DisplayName = none ∨ ∃ d, m.DisplayName = some d ∧ TrimSpace d = "") →
      (buildManualAccountLookup manualAccounts m.ID).map (fun e => e.DisplayName) =
        some m.Name) ∧
    (buildManualAccountLookup manualAccounts m.ID).map (fun e => e.Institution) =
      some (match m.InstitutionName with
        | some inst => TrimSpace inst
        | none => "") ∧
    (∀ d, p.DisplayName = some d → TrimSpace d ≠ "" →
      (buildPlaidAccountLookup plaidAccounts p.ID).map (fun e => e.DisplayName) =
        some (TrimSpace d)) ∧
    ((p.DisplayName = none ∨ ∃ d, p.DisplayName = some d ∧ TrimSpace d = "") →
      (buildPlaidAccountLookup plaidAccounts p.ID).map (fun e => e.DisplayName) =
        some (TrimSpace (p.InstitutionName ++ " " ++ p.Name))) ∧
    (buildPlaidAccountLookup plaidAccounts p.ID).map (fun e => e.Institution) =
      some p.InstitutionName := by
  have hempty : TrimSpace "" = "" := by decide
  rw [buildManualAccountLookup_entry manualAccounts m hm hmuniq,
    buildPlaidAccountLookup_entry plaidAccounts p hp hpuniq]
  refine ⟨TrimSpace_of_all_space, ?_, ?_, ?_, ?_, ?_, ?_⟩
  · intro d hd hne
    simp [hd, stringOrDefault, hne]
  · rintro (h | ⟨d, hd, hd2⟩)
    · simp [h, stringOrDefault, hempty]
    · simp [hd, stringOrDefault, hd2]
  · cases h : m.InstitutionName <;> simp [stringOrDefault, hempty]
  · intro d hd hne
    simp [hd, stringOrDefault, hne]
  · rintro (h | ⟨d, hd, hd2⟩)
    · simp [h, stringOrDefault, hempty]
    · simp [hd, stringOrDefault, hd2]
  · simp

end cli

/-! ## Instances on sample data -/

namespace lunchmoney

/-- Two pages of sizes 2 and 1 are merged into the three transactions, in order,
with the default page size and a gigabyte of memory. -/
theorem ListTransactions_concat_pages_witness :
    (ListTransactions 1073741824
        [Except.ok ⟨[sampleTx 1 "2024-01-03" 5 none none none,
                     sampleTx 2 "2024-01-02" 6 none none none], true⟩,
         Except.ok ⟨[sampleTx 3 "2024-01-01" 7 none none none], false⟩]
        sampleParams).err = none ∧
    (ListTransactions 1073741824
        [Except.ok ⟨[sampleTx 1 "2024-01-03" 5 none none none,
                     sampleTx 2 "2024-01-02" 6 none none none], true⟩,
         Except.ok ⟨[sampleTx 3 "2024-01-01" 7 none none none], false⟩]
        sampleParams).transactions =
      [sampleTx 1 "2024-01-03" 5 none none none, sampleTx 2 "2024-01-02" 6 none none none,
       sampleTx 3 "2024-01-01" 7 none none none] :=
  have h := ListTransactions_concat_pages 1073741824 sampleParams
    [⟨[sampleTx 1 "2024-01-03" 5 none none none, sampleTx 2 "2024-01-02" 6 none none none], true⟩]
    ⟨[sampleTx 3 "2024-01-01" 7 none none none], false⟩ []
    (by decide) (by decide) (by decide) (by decide) (by simp) rfl
  ⟨h.2.1, h.2.2.1⟩

/-- With the page size `math.MaxInt64` the pre-allocation panics before the first
request, even with the whole 64-bit address space available: the two
well-formed pages are never fetched and nothing is returned. -/
theorem ListTransactions_concat_pages_counterexample :
    (ListTransactions 18446744073709551616
        [Except.ok ⟨[sampleTx 1 "2024-01-03" 5 none none none,
                     sampleTx 2 "2024-01-02" 6 none none none], true⟩,
         Except.ok ⟨[sampleTx 3 "2024-01-01" 7 none none none], false⟩]
        { sampleParams with Limit := 9223372036854775807 }).crashed = true ∧
    (ListTransactions 18446744073709551616
        [Except.ok ⟨[sampleTx 1 "2024-01-03" 5 none none none,
                     sampleTx 2 "2024-01-02" 6 none none none], true⟩,
         Except.ok ⟨[sampleTx 3 "2024-01-01" 7 none none none], false⟩]
        { sampleParams with Limit := 9223372036854775807 }).transactions ≠
      [sampleTx 1 "2024-01-03" 5 none none none, sampleTx 2 "2024-01-02" 6 none none none,
       sampleTx 3 "2024-01-01" 7 none none none] ∧
    (ListTransactions 18446744073709551616
        [Except.ok ⟨[sampleTx 1 "2024-01-03" 5 none none none,
                     sampleTx 2 "2024-01-02" 6 none none none], true⟩,
         Except.ok ⟨[sampleTx 3 "2024-01-01" 7 none none none], false⟩]
        { sampleParams with Limit := 9223372036854775807 }).requests = [] := by
  refine ⟨by decide, ?_, by decide⟩
  have h : (ListTransactions 18446744073709551616
        [Except.ok ⟨[sampleTx 1 "2024-01-03" 5 none none none,
                     sampleTx 2 "2024-01-02" 6 none none none], true⟩,
         Except.ok ⟨[sampleTx 3 "2024-01-01" 7 none none none], false⟩]
        { sampleParams with Limit := 9223372036854775807 }).transactions = [] := by decide
  rw [h]
  exact List.noConfusion

/-- An empty second page with `has_more = true` fails the fetch after two requests. -/
theorem ListTransactions_empty_page_fails_witness :
    (ListTransactions 1073741824
        [Except.ok ⟨[sampleTx 1 "2024-01-03" 5 none none none], true⟩,
         Except.ok ⟨[], true⟩,
         Except.ok ⟨[sampleTx 3 "2024-01-01" 7 none none none], false⟩]
        sampleParams).err =
      some "pagination indicated more results but received empty page" ∧
    (ListTransactions 1073741824
        [Except.ok ⟨[sampleTx 1 "2024-01-03" 5 none none none], true⟩,
         Except.ok ⟨[], true⟩,
         Except.ok ⟨[sampleTx 3 "2024-01-01" 7 none none none], false⟩]
        sampleParams).transactions = [] ∧
    (ListTransactions 1073741824
        [Except.ok ⟨[sampleTx 1 "2024-01-03" 5 none none none], true⟩,
         Except.ok ⟨[], true⟩,
         Except.ok ⟨[sampleTx 3 "2024-01-01" 7 none none none], false⟩]
        sampleParams).requests.length = 2 :=
  (ListTransactions_empty_page_fails 1073741824 sampleParams
    [⟨[sampleTx 1 "2024-01-03" 5 none none none], true⟩] ⟨[], true⟩
    [Except.ok ⟨[sampleTx 3 "2024-01-01" 7 none none none], false⟩]
    (by decide) (by decide) (by decide) (by decide) (by simp) rfl rfl).2

/-- With the page size `math.MaxInt64` the pre-allocation panics before the first
request, even with the whole 64-bit address space available: the empty page is
never fetched, no error is returned and no request is issued. -/
theorem ListTransactions_empty_page_fails_counterexample :
    (ListTransactions 18446744073709551616
        [Except.ok ⟨[sampleTx 1 "2024-01-03" 5 none none none], true⟩,
         Except.ok ⟨[], true⟩]
        { sampleParams with Limit := 9223372036854775807 }).crashed = true ∧
    (ListTransactions 18446744073709551616
        [Except.ok ⟨[sampleTx 1 "2024-01-03" 5 none none none], true⟩,
         Except.ok ⟨[], true⟩]
        { sampleParams with Limit := 9223372036854775807 }).err = none ∧
    (ListTransactions 18446744073709551616
        [Except.ok ⟨[sampleTx 1 "2024-01-03" 5 none none none], true⟩,
         Except.ok ⟨[], true⟩]
        { sampleParams with Limit := 9223372036854775807 }).requests.length = 0 := by
  decide

end lunchmoney

namespace cli
open lunchmoney

/-- A positive fetched amount (an outflow) in the income category "Salary" is income. -/
theorem toTransactionView_income_category_witness :
    (toTransactionView (sampleTx 1 "2024-01-05" 120 (some 9) none none) sampleCategories
      (emptyLookup String) (emptyLookup accountMeta) (emptyLookup accountMeta)).Type_ = "income" :=
  toTransactionView_income_category (sampleTx 1 "2024-01-05" 120 (some 9) none none)
    sampleCategories (emptyLookup String) (emptyLookup accountMeta) (emptyLookup accountMeta)
    9 ⟨"Salary", "", true, false⟩ rfl (by decide) rfl

/-- Without a category, fetched amount -25 is income; with the unknown category 8,
fetched amount 25 is an expense. -/
theorem toTransactionView_no_category_witness :
    (toTransactionView (sampleTx 1 "2024-01-05" (-25) none none none) sampleCategories
      (emptyLookup String) (emptyLookup accountMeta) (emptyLookup accountMeta)).Type_ = "income" ∧
    (toTransactionView (sampleTx 2 "2024-01-05" 25 (some 8) none none) sampleCategories
      (emptyLookup String) (emptyLookup accountMeta) (emptyLookup accountMeta)).Type_ = "expense" :=
  ⟨(toTransactionView_no_category (sampleTx 1 "2024-01-05" (-25) none none none) sampleCategories
      (emptyLookup String) (emptyLookup accountMeta) (emptyLookup accountMeta)
      (Or.inl rfl)).2.1 (by norm_num [toTransactionView, sampleTx]),
   (toTransactionView_no_category (sampleTx 2 "2024-01-05" 25 (some 8) none none) sampleCategories
      (emptyLookup String) (emptyLookup accountMeta) (emptyLookup accountMeta)
      (Or.inr ⟨8, rfl, by decide⟩)).2.2.1 (by norm_num [toTransactionView, sampleTx])⟩

/-- Fetched amount 42.50 in the category "Groceries" gives view amount -42.50 and
type "expense". -/
theorem toTransactionView_category_precedence_witness :
    (toTransactionView (sampleTx 1 "2024-01-05" 42.5 (some 7) none none) sampleCategories
      (emptyLookup String) (emptyLookup accountMeta) (emptyLookup accountMeta)).Amount = -42.5 ∧
    (toTransactionView (sampleTx 1 "2024-01-05" 42.5 (some 7) none none) sampleCategories
      (emptyLookup String) (emptyLookup accountMeta) (emptyLookup accountMeta)).Type_ = "expense" :=
  toTransactionView_category_precedence (sampleTx 1 "2024-01-05" 42.5 (some 7) none none)
    sampleCategories (emptyLookup String) (emptyLookup accountMeta) (emptyLookup accountMeta)
    7 ⟨"Groceries", "", false, false⟩ rfl (by decide) rfl

/-- An unknown manual account 42 is shown as "manual:42" even when a plaid id is
also present; an unknown plaid account -5 as "plaid:-5". -/
theorem toTransactionView_account_witness :
    (toTransactionView (sampleTx 1 "2024-01-05" 10 none (some 42) (some 5)) sampleCategories
      (emptyLookup String) (emptyLookup accountMeta) (emptyLookup accountMeta)).Account = "manual:42" ∧
    (toTransactionView (sampleTx 1 "2024-01-05" 10 none none (some (-5))) sampleCategories
      (emptyLookup String) (emptyLookup accountMeta) (emptyLookup accountMeta)).Account = "plaid:-5" :=
  ⟨((toTransactionView_account (sampleTx 1 "2024-01-05" 10 none (some 42) (some 5)) sampleCategories
      (emptyLookup String) (emptyLookup accountMeta) (emptyLookup accountMeta)).2.1
      42 rfl rfl).1,
   ((toTransactionView_account (sampleTx 1 "2024-01-05" 10 none none (some (-5))) sampleCategories
      (emptyLookup String) (emptyLookup accountMeta) (emptyLookup accountMeta)).2.2.2.1
      (-5) rfl rfl rfl).1⟩

end cli

namespace lunchmoney

/-- A 422 reply with the sample body: the top-level message and the two non-empty
item messages are joined. -/
theorem decodeAPIError_message_witness :
    doJSONWithStatuses sampleUnmarshal (Except.ok ⟨422, sampleErrorBody⟩) [200, 201] false
        (fun _ => none) =
      some "api request failed with status 422: bad request; amount is required; date is invalid" ∧
    decodeAPIError sampleUnmarshal ⟨500, " upstream timeout\n"⟩ =
      "api request failed with status 500: upstream timeout" :=
  ⟨(decodeAPIError_message sampleUnmarshal ⟨422, sampleErrorBody⟩ [200, 201] false
      (fun _ => none) (by decide)).1,
   (decodeAPIError_message sampleUnmarshal ⟨500, " upstream timeout\n"⟩ [200] false
      (fun _ => none) (by decide)).2.2 (by decide)⟩

end lunchmoney

namespace cli
open lunchmoney

/-- In the list Food, Groceries, Snacks the category "Groceries" gets the group
name "Food", and "Snacks", whose group id refers to a non-group, gets none. -/
theorem buildCategoryLookup_resolves_groups_witness :
    (∃ g, buildCategoryLookup [sampleFood, sampleGroceries, sampleSnacks] 2 =
        some { Name := "Groceries", Group := g, IsIncome := false, ExcludeFromTotals := false } ∧
      g = "Food") ∧
    (∃ g, buildCategoryLookup [sampleFood, sampleGroceries, sampleSnacks] 3 =
        some { Name := "Snacks", Group := g, IsIncome := false, ExcludeFromTotals := true } ∧
      g = "") :=
  have h := (buildCategoryLookup_resolves_groups [sampleFood, sampleGroceries, sampleSnacks]
    (by decide)).2
  ⟨(h sampleGroceries (by decide)).imp
      (fun _ hg => ⟨hg.1, (hg.2.2 1 rfl).1 sampleFood (by decide) rfl rfl⟩),
   (h sampleSnacks (by decide)).imp
      (fun _ hg => ⟨hg.1, (hg.2.2 2 rfl).2 (by decide)⟩)⟩

/-- The examples of the specification: "Checking" with an empty override, and
"Chase" with "Credit Card" without override. -/
theorem accountLookup_display_name_witness :
    (buildManualAccountLookup [sampleChecking] 1).map (fun e => e.DisplayName) =
      some "Checking" ∧
    (buildPlaidAccountLookup [sampleCreditCard] 2).map (fun e => e.DisplayName) =
      some "Chase Credit Card" :=
  have h := accountLookup_display_name [sampleChecking] sampleChecking (by decide)
    (fun b hb _ => List.mem_singleton.mp hb)
    [sampleCreditCard] sampleCreditCard (by decide) (fun b hb _ => List.mem_singleton.mp hb)
  ⟨h.2.2.1 (Or.inr ⟨"", rfl, by decide⟩), h.2.2.2.2.2.1 (Or.inl rfl)⟩

end cli
